import Mathlib

/-!
Verification development for the hydropick depth-line extraction core.

The definitions below are a shallow embedding of the Python sources:

* `src/hydropick/io/survey_io.py` — trace-number consistency check/repair
  (`check_trace_num_array`, `fix_trace_num_arrays`);
* `src/hydropick/model/algorithms.py` — the image-processing primitives and
  the two surface-picking algorithms;
* `src/hydropick/ui/survey_depth_line_view.py` — the depth-line editing
  operations (`update_arrays`, `apply_to_current`).

Modelling conventions:

* numpy float arrays are modelled over `ℚ` (the claims under study are
  order/index properties, insensitive to the rational/float distinction);
* 2-D intensity images are lists of COLUMNS (each column a list of pixel
  rows top-to-bottom), since every operation used here acts per column
  (`img[:, i]`, `np.argmax(img, axis=0)`, `np.mean(img, axis=1)` is unused);
* numpy NaN-able 1-D arrays are `List (Option ℚ)` with `none` for NaN;
* Python exceptions are `Except`/`Option` results;
* functions that numpy applies in place on a buffer are embedded as
  functions from the initial contents of that buffer to its final contents
  (which the Python functions also return).
-/

set_option autoImplicit false

deriving instance DecidableEq for Except

namespace Hydropick

/-- Python slice endpoint semantics: the effective stop/start index of
`x[:p]` resp. `x[p:]` for a list of length `len`.  Negative `p` counts from
the end, and both directions clamp into `[0, len]`. -/
def pyClamp (len : ℕ) (p : ℤ) : ℕ :=
  if 0 ≤ p then min p.toNat len else len - (-p).toNat

/-- numpy `.astype(np.int)` on a scalar: truncation toward zero. -/
def pyTrunc (q : ℚ) : ℤ :=
  if 0 ≤ q then ⌊q⌋ else ⌈q⌉

/-- numpy banker rounding `np.round(q, 0)`: round half to even. -/
def npRound (q : ℚ) : ℤ :=
  let f := ⌊q⌋
  let r := q - f
  if r < 1/2 then f
  else if 1/2 < r then f + 1
  else if f % 2 = 0 then f else f + 1

/-- `np.median` of a 1-D array: middle element of the sorted array, or the
mean of the two middle elements when the length is even.  (numpy's result on
an empty array is NaN; that case is junk-valued `0` here and never reached
by the theorems below.) -/
def medianQ (l : List ℚ) : ℚ :=
  let s := List.insertionSort (· ≤ ·) l
  let n := l.length
  if n = 0 then 0
  else if n % 2 = 1 then s.getD (n / 2) 0
  else (s.getD (n / 2 - 1) 0 + s.getD (n / 2) 0) / 2

/-!
## survey_io.py: trace-number consistency (lines 141-179)

`check_trace_num_array` computes `bad_indices = np.nonzero(trace_num - ref)[0]`
with `ref = arange(len) + 1`, then runs `if bad_indices:`.  The truth value of
a numpy array of two or more elements is undefined (`ValueError`), so the
check raises whenever two or more indices are bad; with zero or one bad index
it only governs a log statement.  The `Except` models that raise.
-/

/-- Embedding of `check_trace_num_array` (survey_io.py lines 141-159). -/
def check_trace_num_array (tn : List ℤ) : Except String (List ℕ × List ℤ) :=
  let bad := (List.range tn.length).filter (fun i => decide (tn.getD i 0 ≠ (i : ℤ) + 1))
  let vals := bad.map (fun i => tn.getD i 0)
  if bad.length ≤ 1 then .ok (bad, vals)
  else .error "ValueError: the truth value of an array with more than one element is ambiguous"

/-- `np.searchsorted(l, v)` with side left, for an ascending list. -/
def searchsortedLeft (l : List ℕ) (v : ℕ) : ℕ :=
  l.findIdx (fun x => decide (v ≤ x))

/-- The body of the per-frequency loop of `fix_trace_num_arrays`
(survey_io.py lines 167-176) for one frequency sub-array `ta`.
`indices_in_freq` is computed once from the ORIGINAL `ta` (as in the source,
where the in-place writes happen after `np.in1d`); each bad index is then
written at its `searchsorted` position.  numpy raises `IndexError` when that
position falls outside `ta`; the `Except` models that raise. -/
def fixFreq (tn : List ℤ) (bad : List ℕ) (ta : List ℤ) : Except String (List ℤ) :=
  let indicesInFreq := (List.range tn.length).filter (fun i => decide (tn.getD i 0 ∈ ta))
  let badInFreq := bad.filter (fun i => decide (i ∈ indicesInFreq))
  badInFreq.foldlM
    (fun cur index =>
      let iInFreq := searchsortedLeft indicesInFreq index
      if iInFreq < cur.length then .ok (cur.set iInFreq ((index : ℤ) + 1))
      else .error "IndexError: index out of bounds for freq trace array")
    ta

/-- The `for freq, trace_array in freq_trace_num.items()` loop of
`fix_trace_num_arrays`: repair every frequency sub-array in order, stopping
at the first raise. -/
def fixAllFreqs (tn : List ℤ) (bad : List ℕ) :
    List (String × List ℤ) → Except String (List (String × List ℤ))
  | [] => .ok []
  | kv :: rest => do
    let ta2 ← fixFreq tn bad kv.2
    let rest2 ← fixAllFreqs tn bad rest
    return (kv.1, ta2) :: rest2

/-- Embedding of `fix_trace_num_arrays` (survey_io.py lines 162-179): repair
every frequency sub-array, then replace the master trace array wholesale with
`np.arange(1, len + 1)`. -/
def fix_trace_num_arrays (tn : List ℤ) (bad : List ℕ) (ftn : List (String × List ℤ)) :
    Except String (List ℤ × List (String × List ℤ)) :=
  (fixAllFreqs tn bad ftn).map
    (fun ftn2 => ((List.range' 1 tn.length).map Int.ofNat, ftn2))

/-!
## algorithms.py: shared image-processing primitives

Images are lists of columns; `ImageQ` carries the intensity values.
-/

/-- A 2-D float intensity image, stored as a list of columns. -/
abbrev ImageQ := List (List ℚ)

/-- A 2-D boolean mask, stored as a list of columns. -/
abbrev MaskB := List (List Bool)

/-- One column of `_clear_image_above_line` (algorithms.py lines 240-244):
`intensity[:p, i] = np.median(intensity[:p, i])`.  The value of this function
is the final contents of the column buffer (which the Python function also
returns): the rows of the Python slice `[:p]` all become the median of that
slice, the remaining rows are untouched. -/
def clearCol (col : List ℚ) (p : ℤ) : List ℚ :=
  let q := pyClamp col.length p
  ((col.take q).map (fun _ => medianQ (col.take q))) ++ col.drop q

/-- Embedding of `_clear_image_above_line` (algorithms.py lines 240-244):
`for i, p in enumerate(current_surface_locs): intensity[:p, i] = median(...)`.
The loop runs over `locs`; columns beyond `locs.length` are untouched.  (When
`locs` is longer than the image the Python code raises `IndexError`; the
claims below only use matching lengths.) -/
def clearImageAboveLine (img : ImageQ) (locs : List ℤ) : ImageQ :=
  List.zipWith clearCol img locs ++ img.drop locs.length

/-- `np.argmax` over one column: index of the first occurrence of the
maximum value.  (numpy raises on an empty column; the value is junk `0`
there and never reached by the theorems below.) -/
def argmaxIdx (col : List ℚ) : ℕ :=
  col.findIdx (fun x => decide (col.maximum ≤ WithBot.some x))

/-- The 9-point window, centred at `i` and zero-padded at both ends, that
`scipy.signal.medfilt(y, kernel_size=9)` sorts to produce output `i`. -/
def window9 (y : List ℕ) (i : ℕ) : List ℕ :=
  (List.range 9).map (fun k =>
    if 4 ≤ i + k ∧ i + k < y.length + 4 then y.getD (i + k - 4) 0 else 0)

/-- Median of one (9-element) window: middle element of the sorted window. -/
def med9 (w : List ℕ) : ℕ :=
  (List.insertionSort (· ≤ ·) w).getD 4 0

/-- `scipy.signal.medfilt(y, kernel_size=9)`: per-index median of the
zero-padded 9-point window. -/
def medfilt9 (y : List ℕ) : List ℕ :=
  (List.range y.length).map (fun i => med9 (window9 y i))

/-- Embedding of `_find_centers` (algorithms.py lines 253-256) at the only
kernel size used by the call sites (the default 9):
`medfilt(np.argmax(img, axis=0), kernel_size=9).astype(np.int)`. -/
def findCenters (img : ImageQ) : List ℕ :=
  medfilt9 (img.map argmaxIdx)

/-- Greatest index `k < stop` with `x.getD k false = true`, scanning
downward from `stop - 1`; this is `np.where(x[:stop])[0][-1]`. -/
def lastTrueBelow (x : List Bool) : ℕ → Option ℕ
  | 0 => none
  | q + 1 => if x.getD q false then some q else lastTrueBelow x q

/-- First index at least `i` whose entry of `l` (which represents the suffix
of the column starting at absolute index `i`) is true. -/
def firstTrueAux : List Bool → ℕ → Option ℕ
  | [], _ => none
  | b :: t, i => if b then some i else firstTrueAux t (i + 1)

/-- Embedding of `_first_point_above` (algorithms.py lines 196-201):
`np.where(x[:p])[0][-1]`, i.e. the last true index of the slice strictly
below `p`; `none` models the NaN returned when the slice holds no true
pixel. -/
def first_point_above (x : List Bool) (p : ℤ) : Option ℕ :=
  lastTrueBelow x (pyClamp x.length p)

/-- Embedding of `_first_point_below` (algorithms.py lines 212-217):
`np.where(x[p:])[0][0] + p`, i.e. the first true index of the suffix
starting at `p`; `none` models the NaN returned when the suffix holds no
true pixel. -/
def first_point_below (x : List Bool) (p : ℤ) : Option ℕ :=
  firstTrueAux (x.drop (pyClamp x.length p)) (pyClamp x.length p)

/-- Embedding of `_find_edge` (algorithms.py lines 259-270): per entry of
`centers`, apply `_first_point_above` when `surface == 'upper'` and
`_first_point_below` otherwise, to the matching column of the mask.  (The
Python loop raises `IndexError` when `centers` is longer than the image has
columns; the claims below only use matching lengths.) -/
def find_edge (mask : MaskB) (centers : List ℤ) (surface : String) : List (Option ℕ) :=
  (List.range centers.length).map (fun i =>
    if surface = "upper" then first_point_above (mask.getD i []) (centers.getD i 0)
    else first_point_below (mask.getD i []) (centers.getD i 0))

/-- External-library operations that the algorithms call but that are not
code of this repository: `sklearn.mixture.GMM` inside `_find_top_bottom`
(algorithms.py lines 181-193), `skimage.filter.threshold_otsu` inside
`_auto_threshold` (line 220-221), and `skimage.morphology.binary_opening`
with `disk(3)` inside `_apply_threshold` (line 227).  The embedding is
parametric in them; no claim below depends on their values. -/
structure ExtOps where
  findTopBottom : ImageQ → ℕ × ℕ
  otsu : ImageQ → ℚ
  binaryOpening : MaskB → MaskB

/-- Embedding of `_apply_threshold` (algorithms.py lines 224-229):
`binary_img = img < threshold`, then despeckle by binary opening. -/
def applyThreshold (ext : ExtOps) (img : ImageQ) (threshold : ℚ) : MaskB :=
  ext.binaryOpening (img.map (fun col => col.map (fun v => decide (v < threshold))))

/-- `np.interp` for one query point `x`, over the anchor points
`(x0, y0) :: rest` (ascending, as produced below): clamps to the first/last
anchor value outside the anchor range, linear interpolation inside. -/
def npInterp (x : ℚ) : ℚ × ℚ → List (ℚ × ℚ) → ℚ
  | (_, y0), [] => y0
  | (x0, y0), (x1, y1) :: rest =>
    if x ≤ x0 then y0
    else if x ≤ x1 then y0 + (y1 - y0) * (x - x0) / (x1 - x0)
    else npInterp x (x1, y1) rest

/-- Embedding of `_interpolate_nans` (algorithms.py lines 289-292):
`y[nans] = np.interp(x(nans), x(~nans), y[~nans])`, then
`y.round(0).astype(np.int)`.  The first component is the final contents of
the argument buffer `y` (every NaN overwritten with its interpolated value),
the second the returned rounded integer array.  `np.interp` raises
`ValueError` when the anchor array `x(~nans)` is empty, which happens
exactly when `y` has no valid entry; `none` models that raise. -/
def interpolateNans (y : List (Option ℚ)) : Option (List ℚ × List ℤ) :=
  let pts := (List.range y.length).filterMap
    (fun i => (y.getD i none).map (fun v => ((i : ℚ), v)))
  match pts with
  | [] => none
  | p0 :: rest =>
    let filled := (List.range y.length).map (fun i =>
      match y.getD i none with
      | some v => v
      | none => npInterp (i : ℚ) p0 rest)
    some (filled, filled.map npRound)

/-- Embedding of `_convert_to_depth` (algorithms.py lines 247-250):
`_interpolate_nans(depth_array) * pixel_resolution + draft - heave`.  The
subtraction of the per-trace `heave` array is numpy broadcasting; shapes
other than equal length raise, modelled by the guard. -/
def convertToDepth (depth : List (Option ℚ)) (res draft : ℚ) (heave : List ℚ) :
    Except String (List ℚ) :=
  match interpolateNans depth with
  | none => .error "ValueError: array of sample points is empty"
  | some (_, ints) =>
    let scaled := ints.map (fun z => (z : ℚ) * res)
    if scaled.length = heave.length then
      .ok (List.zipWith (fun v hv => v + draft - hv) scaled heave)
    else .error "ValueError: operands could not be broadcast together"

/-!
## Data model
-/

/-- Modelled from the spec: the DepthLine value object of section 3
(`model/depth_line.py` is not among the sources; its fields are read off the
spec data model and the uses in `survey_line.py` and
`survey_depth_line_view.py`, which access `name`, `survey_line_name`,
`line_type`, `source`, `source_name`, `args`, `index_array`, `depth_array`,
`edited` and `lock`). -/
structure DepthLineM where
  name : String
  survey_line_name : String
  line_type : String
  source : String
  source_name : String
  args : List (String × String)
  index_array : List ℤ
  depth_array : List ℚ
  edited : Bool
  lock : Bool
deriving DecidableEq

/-- The fields of `SurveyLine` (model/survey_line.py) that the two
algorithms read.  Frequency keys are the numeric values of the string keys
of the Python dictionaries (the source parses them with `float` before
comparing). -/
structure SurveyLineM where
  trace_num : List ℤ
  frequencies : List (ℚ × ImageQ)
  freq_trace_num : List (ℚ × List ℤ)
  draft : ℚ
  heave : List ℚ
  pixel_resolution : ℚ
  lake_depths : List (String × DepthLineM)
  preimpoundment_depths : List (String × DepthLineM)
deriving DecidableEq

/-- First value bound to key `k` in an association list (Python dict read). -/
def lookupA {β : Type} (l : List (ℚ × β)) (k : ℚ) : Option β :=
  (l.find? (fun kv => decide (kv.1 = k))).map (fun kv => kv.2)

/-- The frequency label configured on an algorithm
(`frequency = Enum(['200', '50', '24'])`). -/
inductive FreqLabel where
  | f200
  | f50
  | f24
deriving DecidableEq

/-- Embedding of `_freq_dict` (algorithms.py lines 273-276):
`key_24, key_50, key_200 = sorted([float(k) for k in keys])` followed by
`{'200': key_200, '50': key_50, '24': key_24}`.  The triple is
`(key_24, key_50, key_200)` in ascending order; `none` models the
`ValueError` of unpacking a sorted list whose length is not three. -/
def freqDict (keys : List ℚ) : Option (ℚ × ℚ × ℚ) :=
  match List.insertionSort (· ≤ ·) keys with
  | [a, b, c] => some (a, b, c)
  | _ => none

/-- Reading one label out of the `_freq_dict` result. -/
def freqLabelKey (fd : ℚ × ℚ × ℚ) : FreqLabel → ℚ
  | .f24 => fd.1
  | .f50 => fd.2.1
  | .f200 => fd.2.2

/-- Embedding of `_get_intensity` (algorithms.py lines 279-286): map the
label through `_freq_dict`, read `freq_trace_num[freq]` and a COPY of
`frequencies[freq]`.  The NaN-fill
`intensity[np.isnan(intensity)] = np.median(intensity)` is the identity on
the NaN-free rasters modelled here. -/
def getIntensity (sl : SurveyLineM) (label : FreqLabel) :
    Except String (ImageQ × List ℤ) :=
  match freqDict (sl.frequencies.map (fun kv => kv.1)) with
  | none => .error "ValueError: too many values to unpack in freq dict"
  | some fd =>
    let key := freqLabelKey fd label
    match lookupA sl.freq_trace_num key with
    | none => .error "KeyError: freq_trace_num"
    | some fta =>
      match lookupA sl.frequencies key with
      | none => .error "KeyError: frequencies"
      | some intensity => .ok (intensity, fta)

/-- numpy basic integer indexing with wrap-around for negative indices;
out-of-bounds raises `IndexError`. -/
def pyNormIdx (len : ℕ) (i : ℤ) : Except String ℕ :=
  if 0 ≤ i then
    if i.toNat < len then .ok i.toNat else .error "IndexError"
  else
    if (-i).toNat ≤ len then .ok (len - (-i).toNat) else .error "IndexError"

/-- numpy fancy indexing `l[idxs]` over an integer index array. -/
def pyFancyIndex {α : Type} [Inhabited α] (l : List α) (idxs : List ℤ) :
    Except String (List α) :=
  idxs.mapM (fun t => (pyNormIdx l.length t).map (fun n => l.getD n default))

/-- Embedding of `_get_current_surface` (algorithms.py lines 232-237): look
the named line up in `lake_depths` (`KeyError` when absent), take a COPY of
its `depth_array`, add `heave - draft` element-wise (numpy broadcasting:
equal lengths required) and divide by the pixel resolution, truncating to
int. -/
def getCurrentSurface (sl : SurveyLineM) (lineName : String) : Except String (List ℤ) :=
  match (sl.lake_depths.find? (fun kv => decide (kv.1 = lineName))).map (fun kv => kv.2) with
  | none => .error "KeyError: current surface line not in lake_depths"
  | some dl =>
    if dl.depth_array.length = sl.heave.length then
      .ok ((List.zipWith (fun d hv => d + hv - sl.draft) dl.depth_array sl.heave).map
        (fun q => pyTrunc (q / sl.pixel_resolution)))
    else .error "ValueError: operands could not be broadcast together"

/-- numpy fancy assignment `arr[idxs] = vals`: equal lengths required,
indices wrap when negative, later writes win. -/
def scatterSet (arr : List (Option ℚ)) (idxs : List ℤ) (vals : List (Option ℚ)) :
    Except String (List (Option ℚ)) :=
  if idxs.length = vals.length then
    (idxs.zip vals).foldlM
      (fun cur iv => (pyNormIdx cur.length iv.1).map (fun n => cur.set n iv.2))
      arr
  else .error "ValueError: shape mismatch in fancy assignment"

/-- Python slice `col[a:b]` of one column. -/
def pySlice {α : Type} (col : List α) (a b : ℤ) : List α :=
  (col.take (pyClamp col.length b)).drop (pyClamp col.length a)

/-!
## The two algorithms
-/

/-- The declared configuration of `ThresholdCurrentSurface`
(algorithms.py lines 70-74). -/
structure CurrentCfg where
  frequency : FreqLabel
  threshold : ℚ
  threshold_offset : ℚ
  blank_above_distance : ℚ
  blank_below_distance : ℚ
deriving DecidableEq

/-- The declared configuration of `ThresholdPreImpoundmentSurface`
(algorithms.py lines 144-147). -/
structure PreCfg where
  frequency : FreqLabel
  threshold : ℚ
  threshold_offset : ℚ
  current_surface_line : String
deriving DecidableEq

/-- The band-limit override step of `ThresholdCurrentSurface.process_line`
(algorithms.py lines 85-90).  `_find_top_bottom`'s result stands unless a
blank distance is STRICTLY positive — but the override branches themselves
raise: `survey_line.pixel_resolution` is a traits `CFloat` and the blank
distances are traits `Float`s, all builtin Python floats, so the quotient
`blank_distance / pixel_resolution` is a builtin float, which has no
`.astype` method, and lines 87/90 raise `AttributeError` whenever taken
(the `blank_above` test runs first).  The intended conversion
`(distance / pixel_resolution).astype(np.int)` is never computed. -/
def blankedTopBot (cfg : CurrentCfg) (_res : ℚ) (tb : ℕ × ℕ) : Except String (ℤ × ℤ) :=
  if 0 < cfg.blank_above_distance then
    .error "AttributeError: float object has no attribute astype"
  else if 0 < cfg.blank_below_distance then
    .error "AttributeError: float object has no attribute astype"
  else .ok ((tb.1 : ℤ), (tb.2 : ℤ))

/-- Embedding of `ThresholdCurrentSurface.process_line`
(algorithms.py lines 76-109).  Every buffer the pipeline writes in place
(`intensity` via `_get_intensity`'s copy, the locally created `depth_array`)
is local, so the survey line record is left unchanged; accordingly the
field-level result of the call is only the returned pair. -/
def processLineCurrentCore (cfg : CurrentCfg) (ext : ExtOps) (sl : SurveyLineM) :
    Except String (List ℤ × List ℚ) := do
  let traceArray := sl.trace_num
  let depth0 : List (Option ℚ) := List.replicate traceArray.length none
  let (intensity, fta) ← getIntensity sl cfg.frequency
  let tb0 := ext.findTopBottom intensity
  let (top, bot) ← blankedTopBot cfg sl.pixel_resolution tb0
  let actualThreshold :=
    if cfg.threshold < 0 then ext.otsu intensity + cfg.threshold_offset else cfg.threshold
  let binaryImg := applyThreshold ext intensity actualThreshold
  let centers := (findCenters (intensity.map (fun col => pySlice col top bot))).map
    (fun c => (c : ℤ) + top)
  let edges := find_edge binaryImg centers "upper"
  let depth1 ← scatterSet depth0 (fta.map (fun t => t - 1))
    (edges.map (fun e => e.map (fun k => (k : ℚ))))
  let depthArray ← convertToDepth depth1 sl.pixel_resolution sl.draft sl.heave
  return (traceArray, depthArray)

/-- `ThresholdCurrentSurface.process_line` together with the final state of
the survey line record: no field of `sl` is ever written (the in-place
writes all land on local copies), so the final state is `sl` itself on every
path, including error paths. -/
def processLineCurrent (cfg : CurrentCfg) (ext : ExtOps) (sl : SurveyLineM) :
    Except String (List ℤ × List ℚ) × SurveyLineM :=
  (processLineCurrentCore cfg ext sl, sl)

/-- Embedding of `ThresholdPreImpoundmentSurface.process_line`
(algorithms.py lines 149-178). -/
def processLinePreCore (cfg : PreCfg) (ext : ExtOps) (sl : SurveyLineM) :
    Except String (List ℤ × List ℚ) := do
  let traceArray := sl.trace_num
  let depth0 : List (Option ℚ) := List.replicate traceArray.length none
  let (intensity0, fta) ← getIntensity sl cfg.frequency
  let locsAll ← getCurrentSurface sl cfg.current_surface_line
  let locs ← pyFancyIndex locsAll (fta.map (fun t => t - 1))
  let intensity := clearImageAboveLine intensity0 locs
  let threshold :=
    if cfg.threshold < 0 then ext.otsu intensity + cfg.threshold_offset else cfg.threshold
  let binaryImg := applyThreshold ext intensity threshold
  let centers := (findCenters intensity).map (fun c => (c : ℤ))
  let edges := find_edge binaryImg centers "lower"
  let depth1 ← scatterSet depth0 (fta.map (fun t => t - 1))
    (edges.map (fun e => e.map (fun k => (k : ℚ))))
  let depthArray ← convertToDepth depth1 sl.pixel_resolution sl.draft sl.heave
  return (traceArray, depthArray)

/-- `ThresholdPreImpoundmentSurface.process_line` together with the final
state of the survey line record (unchanged on every path, as for the
current-surface algorithm: `_get_intensity` and `_get_current_surface` copy
before anything writes). -/
def processLinePre (cfg : PreCfg) (ext : ExtOps) (sl : SurveyLineM) :
    Except String (List ℤ × List ℚ) × SurveyLineM :=
  (processLinePreCore cfg ext sl, sl)

/-!
## survey_depth_line_view.py: editing operations

`DepthLineView` drives edits of the current `DepthLine` model.  The state
below carries the traits the two button handlers `update_arrays` and
`apply_to_current` read or write.  `problems` records the messages passed to
`log_problem` (which logs the error and opens a message dialog);
`current_algorithm` is abstracted to its argument dictionary, and
`alg_result` is the value `process_line` would produce for the current
survey line (an `Except`, since `process_line` can raise).  `depth_dict` is
modelled from the spec: it is the combined name-to-line mapping of the
session object (`ui/survey_data_session.py` is not among the sources). -/
structure DLViewState where
  model : DepthLineM
  selected_depth_line_name : String
  no_problem : Bool
  problems : List String
  lake_depths : List (String × DepthLineM)
  preimpoundment_depths : List (String × DepthLineM)
  depth_dict : List (String × DepthLineM)
  final_lake_depth : String
  final_preimpoundment_depth : String
  current_algorithm : Option (List (String × String))
  alg_result : Except String (List ℤ × List ℚ)
deriving DecidableEq

/-- Python `str.strip()`: remove leading and trailing whitespace. -/
def pyStrip (s : String) : String :=
  String.mk ((s.data.dropWhile Char.isWhitespace).reverse.dropWhile Char.isWhitespace).reverse

/-- Python `''.join(s.split('_')[1:])` as used on the selected depth-line
name (survey_depth_line_view.py lines 313-315): everything after the first
underscore, with the remaining underscores removed; empty when the name has
no underscore. -/
def pySplitTailJoin (s : String) : String :=
  match s.data.dropWhile (fun c => decide (c ≠ '_')) with
  | [] => ""
  | _ :: rest => String.mk (rest.filter (fun c => decide (c ≠ '_')))

/-- The message `update_arrays` and `apply_to_current` pass to
`log_problem` when the model is locked (survey_depth_line_view.py lines 260
and 318). -/
def lockedMsg : String := "locked so cannot change/create anything"

/-- Embedding of `DepthLineView.log_problem` (lines 561-566): clear the
`no_problem` flag and record the message (logged and shown to the user). -/
def logProblem (st : DLViewState) (msg : String) : DLViewState :=
  { st with no_problem := false, problems := st.problems ++ [msg] }

/-- Write into an association-list dictionary, as the Python dict write
`d[k] = v` does: replace the existing binding or append a new one. -/
def dictSet (l : List (String × DepthLineM)) (k : String) (v : DepthLineM) :
    List (String × DepthLineM) :=
  if (l.map (fun kv => kv.1)).contains k then
    l.map (fun kv => if kv.1 = k then (k, v) else kv)
  else l ++ [(k, v)]

/-- Embedding of `check_if_name_already_exists` (lines 479-500) called on
the current model: strip the proposed name, then test it against the keys of
the dictionary matching the line type; an unknown line type logs a problem
and counts as used; a used name logs a problem and LOCKS the model. -/
def checkIfNameAlreadyExists (st : DLViewState) : DLViewState :=
  let st1 := { st with model := { st.model with name := pyStrip st.model.name } }
  let used :=
    if st1.model.line_type = "current surface" then
      (st1.lake_depths.map (fun kv => kv.1)).contains st1.model.name
    else if st1.model.line_type = "pre-impoundment surface" then
      (st1.preimpoundment_depths.map (fun kv => kv.1)).contains st1.model.name
    else true
  let st2 :=
    if st1.model.line_type = "current surface" ∨
        st1.model.line_type = "pre-impoundment surface" then st1
    else logProblem st1 "problem checking depth_line_name_new"
  if used then
    let st3 := logProblem st2
      "name already used. To overwrite, select that line, unlock and edit, then reapply"
    { st3 with model := { st3.model with lock := true } }
  else st2

/-- Embedding of `check_arrays` (lines 460-472) on the current model: log a
problem when either array is empty or the sizes differ. -/
def checkArrays (st : DLViewState) : DLViewState :=
  let d := st.model.depth_array.length
  let i := st.model.index_array.length
  if d = 0 ∨ i = 0 ∨ d ≠ i then
    logProblem st "data arrays sizes are 0 or not equal"
  else st

/-- Embedding of `check_printable_name` (lines 474-477). -/
def checkPrintableName (st : DLViewState) : DLViewState :=
  if pyStrip st.model.name = "" then logProblem st "depth line has no printable name" else st

/-- Embedding of `check_args` (lines 516-531): with a configured algorithm,
compare `model.args` against the live argument dictionary.  (The handler is
only reached with a configured algorithm; the `none` branch is the
source's `if alg:` fall-through.) -/
def checkArgs (st : DLViewState) : DLViewState :=
  match st.current_algorithm with
  | none => st
  | some argd =>
    if st.model.args = argd then st
    else logProblem st "arguments do not match - please configure algorithm."

/-- Embedding of `make_from_algorithm` (lines 568-577):
`trace_array, depth_array = algorithm.process_line(survey_line)`, then
`model.index_array = trace_array - 1` and `model.depth_array = depth_array`
(the int32/float32 casts are the identity at the value level modelled
here).  `none` models an exception propagating out of `process_line`. -/
def makeFromAlgorithm (st : DLViewState) : Option DLViewState :=
  match st.alg_result with
  | .error _ => none
  | .ok (ta, da) =>
    some { st with model :=
      { st.model with index_array := ta.map (fun t => t - 1), depth_array := da } }

/-- Embedding of `make_from_depth_line` (lines 579-582): copy the arrays of
the named line of `depth_dict`; a missing name is an uncaught `KeyError`
(`none`). -/
def makeFromDepthLine (st : DLViewState) (lineName : String) : Option DLViewState :=
  match (st.depth_dict.find? (fun kv => kv.1 = lineName)).map (fun kv => kv.2) with
  | none => none
  | some src0 =>
    some { st with model :=
      { st.model with index_array := src0.index_array, depth_array := src0.depth_array } }

/-- Embedding of the `update_arrays` button handler (lines 253-300).  The
control flow of the source is kept: the lock test only logs a problem; the
`no_problem` gate then decides whether any array update runs at all, and the
handler always resets `no_problem` to true on the way out so the user can
continue.  `none` models an exception escaping the handler. -/
def updateArrays (st : DLViewState) : Option DLViewState :=
  let st1 := if st.model.lock then logProblem st lockedMsg else st
  let st2 := if st1.selected_depth_line_name = "none" then checkIfNameAlreadyExists st1 else st1
  if st2.no_problem then
    let mid : Option DLViewState :=
      if st2.model.source = "algorithm" then
        let afterMake : Option DLViewState :=
          match st2.current_algorithm with
          | some _ => makeFromAlgorithm st2
          | none => some (logProblem st2 "need to configure algorithm")
        afterMake.map (fun s => if s.no_problem then checkArgs s else s)
      else if st2.model.source = "previous depth line" then
        makeFromDepthLine st2 st2.model.source_name
      else
        some { logProblem st2 "source sdi only available at survey load" with no_problem := true }
    mid.map (fun s =>
      if s.no_problem then { checkArrays s with no_problem := true }
      else { s with no_problem := true })
  else some { st2 with no_problem := true }

/-- Embedding of the `apply_to_current` button handler (lines 302-341):
validate name and arrays, re-check the name when it differs from the
selected one, refuse when locked, and only then write the model into the
appropriate depth-line dictionary and promote it to the final selection. -/
def applyToCurrent (st : DLViewState) : DLViewState :=
  let st1 := checkPrintableName st
  let st2 := checkArrays st1
  let joined := pySplitTailJoin st2.selected_depth_line_name
  let st3 := if st2.model.name ≠ joined then checkIfNameAlreadyExists st2 else st2
  let st4 := if st3.model.lock then logProblem st3 lockedMsg else st3
  if st4.no_problem then
    if st4.model.line_type = "current surface" then
      { st4 with
        lake_depths := dictSet st4.lake_depths st4.model.name st4.model,
        final_lake_depth := st4.model.name,
        selected_depth_line_name := "POST_" ++ st4.model.name }
    else
      { st4 with
        preimpoundment_depths := dictSet st4.preimpoundment_depths st4.model.name st4.model,
        final_preimpoundment_depth := st4.model.name,
        selected_depth_line_name := "PRE_" ++ st4.model.name }
  else
    { logProblem st4 "Could not make/change line. Did you update Data? Check log for details"
      with no_problem := true }

end Hydropick

namespace Hydropick

/-!
## Claims C1, C2, C3: trace-number check and repair
-/

/-- The canonical trace numbering `np.arange(1, n + 1)`. -/
def arangeFromOne (n : ℕ) : List ℤ :=
  (List.range' 1 n).map Int.ofNat

theorem fix_trace_num_fst (tn : List ℤ) (bad : List ℕ) (ftn : List (String × List ℤ))
    (out : List ℤ × List (String × List ℤ)) (h : fix_trace_num_arrays tn bad ftn = .ok out) :
    out.1 = arangeFromOne tn.length := by
  unfold fix_trace_num_arrays at h
  cases hm : fixAllFreqs tn bad ftn with
  | error e => rw [hm] at h; exact absurd h (by simp [Except.map])
  | ok f2 =>
    rw [hm] at h
    simp only [Except.map, Except.ok.injEq] at h
    rw [← h]
    rfl

theorem arangeFromOne_getD (n i : ℕ) (h : i < n) :
    (arangeFromOne n).getD i 0 = (i : ℤ) + 1 := by
  rw [arangeFromOne, List.getD_eq_getD_get?, List.get?_eq_getElem?, List.getElem?_map,
    List.getElem?_range' _ _ h]
  simp [Int.ofNat_eq_coe]
  omega

theorem check_arangeFromOne (n : ℕ) :
    check_trace_num_array (arangeFromOne n) = .ok ([], []) := by
  have hlen : (arangeFromOne n).length = n := by
    simp [arangeFromOne]
  have hbad : (List.range (arangeFromOne n).length).filter
      (fun i => decide ((arangeFromOne n).getD i 0 ≠ (i : ℤ) + 1)) = [] := by
    rw [List.filter_eq_nil_iff]
    intro i hi
    rw [List.mem_range, hlen] at hi
    have hv := arangeFromOne_getD n i hi
    simp only [List.getD_eq_getD_get?, List.get?_eq_getElem?] at hv
    simp [hv]
  unfold check_trace_num_array
  rw [hbad]
  rfl

theorem fixFreq_nil_bad (tn ta : List ℤ) : fixFreq tn [] ta = .ok ta := rfl

theorem fixAllFreqs_nil_bad (tn : List ℤ) (ftn : List (String × List ℤ)) :
    fixAllFreqs tn [] ftn = .ok ftn := by
  induction ftn with
  | nil => rfl
  | cons kv rest ih =>
    simp [fixAllFreqs, fixFreq_nil_bad, ih, Bind.bind, Except.bind, Pure.pure, Except.pure]

theorem fix_trace_num_nil_bad (tn : List ℤ) (ftn : List (String × List ℤ)) :
    fix_trace_num_arrays tn [] ftn = .ok (arangeFromOne tn.length, ftn) := by
  unfold fix_trace_num_arrays
  rw [fixAllFreqs_nil_bad]
  rfl

/-- C1: as stated the claim is FALSE: for `trace_num = [1, 1]` (whose single
bad index computed by `check_trace_num_array` is index 1) and the frequency
mapping `{14: [1]}`, `fix_trace_num_arrays` does not return the canonical
`1..N` numbering at all — `np.searchsorted` places the bad index at position
1 of the one-element frequency sub-array and the write raises `IndexError`. -/
theorem c1_counterexample :
    check_trace_num_array [1, 1] = .ok ([1], [1]) ∧
      fix_trace_num_arrays [1, 1] [1] [("14", [1])] =
        .error "IndexError: index out of bounds for freq trace array" := by
  constructor <;> decide

/-- C1 (amended): whenever `fix_trace_num_arrays` returns (raises no
`IndexError`), its trace-number output is exactly `1..N`; and repair is
idempotent and canonicalizing: running `check_trace_num_array` followed by
`fix_trace_num_arrays` a second time on the repaired result never raises,
reports no bad index, and returns exactly the same output. -/
theorem c1_repair_canonical_idempotent (tn : List ℤ) (bad : List ℕ)
    (ftn : List (String × List ℤ)) (out : List ℤ × List (String × List ℤ))
    (h : fix_trace_num_arrays tn bad ftn = .ok out) :
    out.1 = arangeFromOne tn.length ∧
      check_trace_num_array out.1 = .ok ([], []) ∧
      fix_trace_num_arrays out.1 [] out.2 = .ok out := by
  have h1 := fix_trace_num_fst tn bad ftn out h
  refine ⟨h1, ?_, ?_⟩
  · rw [h1]; exact check_arangeFromOne tn.length
  · rw [fix_trace_num_nil_bad, h1]
    have : (arangeFromOne tn.length).length = tn.length := by simp [arangeFromOne]
    rw [this]
    exact congrArg Except.ok (Prod.ext h1.symm rfl)

/-- C1 witness: a concrete run of the amended theorem on
`trace_num = [1, 1]` with bad index 1 and frequency mapping `{14: [1, 2]}`,
whose repair succeeds with output `([1, 2], {14: [1, 2]})`. -/
theorem c1_witness :
    fix_trace_num_arrays [1, 1] [1] [("14", [1, 2])] = .ok ([1, 2], [("14", [1, 2])]) ∧
      ([1, 2] : List ℤ) = arangeFromOne 2 ∧
      check_trace_num_array [1, 2] = .ok ([], []) ∧
      fix_trace_num_arrays [1, 2] [] [("14", [1, 2])] = .ok ([1, 2], [("14", [1, 2])]) :=
  ⟨by decide,
    c1_repair_canonical_idempotent [1, 1] [1] [("14", [1, 2])]
      ([1, 2], [("14", [1, 2])]) (by decide)⟩

/-- C2: the claim is right about the intended contract but the code slips:
`check_trace_num_array` computes exactly the mismatching indices and values,
yet guards its warning with `if bad_indices:` on a numpy array, whose truth
value raises `ValueError` as soon as TWO or more indices are bad.  With zero
or one bad index the function returns the pair as the claim states; with two
(`trace_num = [2, 3]`) it raises. -/
theorem c2_check_raises_on_two_bad :
    check_trace_num_array [1, 2, 3] = .ok ([], []) ∧
      check_trace_num_array [1, 2, 6] = .ok ([2], [6]) ∧
      check_trace_num_array [2, 3] =
        .error "ValueError: the truth value of an array with more than one element is ambiguous" := by
  refine ⟨by decide, by decide, by decide⟩

/-- C3: the spec's Scenario A input `trace_num = [1, 2, 4, 5]` has TWO bad
indices (2 and 3), so `check_trace_num_array` raises before
`fix_trace_num_arrays` can run (the same slip as C2).  Had check returned
its computed bad indices `[2, 3]`, the repair would indeed yield
`[1, 2, 3, 4]` and rewrite the frequency entry 4 to 3 (and 5 to 4), as the
second conjunct evaluates. -/
theorem c3_scenario_a :
    check_trace_num_array [1, 2, 4, 5] =
        .error "ValueError: the truth value of an array with more than one element is ambiguous" ∧
      fix_trace_num_arrays [1, 2, 4, 5] [2, 3] [("200", [1, 4]), ("50", [2, 5])] =
        .ok ([1, 2, 3, 4], [("200", [1, 3]), ("50", [2, 4])]) := by
  refine ⟨by decide, by decide⟩

end Hydropick

namespace Hydropick

/-!
## Claim C7: manual band-limit override of the current-surface algorithm
-/

/-- A configuration requesting the manual top override
(`blank_above_distance = 3`). -/
def cfgC7 : CurrentCfg :=
  { frequency := .f200, threshold := -1/10, threshold_offset := 0,
    blank_above_distance := 3, blank_below_distance := -1 }

/-- A configuration requesting neither override. -/
def cfgC7auto : CurrentCfg :=
  { frequency := .f200, threshold := -1/10, threshold_offset := 0,
    blank_above_distance := -1, blank_below_distance := -1 }

/-- A well-formed one-trace, three-raster survey line. -/
def slC7 : SurveyLineM :=
  { trace_num := [1], frequencies := [(200, [[1]]), (50, [[1]]), (24, [[1]])],
    freq_trace_num := [(200, [1]), (50, [1]), (24, [1])], draft := 0, heave := [0],
    pixel_resolution := 1, lake_depths := [], preimpoundment_depths := [] }

/-- Oracles standing for the external-library calls. -/
def extC7 : ExtOps :=
  { findTopBottom := fun _ => (7, 20), otsu := fun _ => 0, binaryOpening := fun m => m }

/-- C7: the claim states the intended behaviour — the algorithm's own
`instructions` text documents the blank distances as manual overrides of the
detected band ("ignore image above this depth") — but the code slips on
types: `pixel_resolution` is a traits `CFloat` and the blank distances are
traits `Float`s (builtin Python floats), so the quotient at
algorithms.py lines 87/90 is a builtin float and `.astype(np.int)` raises
`AttributeError` whenever the override branch is taken.  Evaluated at the
failing input (`blank_above_distance = 3` on a well-formed line):
`process_line` raises instead of using the converted top limit, and the
bare override step raises for either strictly positive distance; with both
distances non-positive the `_find_top_bottom` limits `(7, 20)` are used
unchanged. -/
theorem c7_blank_override_raises :
    (processLineCurrent cfgC7 extC7 slC7).1 =
        .error "AttributeError: float object has no attribute astype" ∧
      blankedTopBot cfgC7 1 (7, 20) =
        .error "AttributeError: float object has no attribute astype" ∧
      blankedTopBot
          { frequency := .f200, threshold := -1/10, threshold_offset := 0,
            blank_above_distance := -1, blank_below_distance := 3 } 1 (7, 20) =
        .error "AttributeError: float object has no attribute astype" ∧
      blankedTopBot cfgC7auto 1 (7, 20) = .ok (7, 20) := by
  refine ⟨by decide, by decide, by decide, by decide⟩

end Hydropick

namespace Hydropick

/-!
## Claim C10: frequency-label selection needs exactly three rasters
-/

theorem freqDict_eq_none_of_len (keys : List ℚ) (h : keys.length ≠ 3) :
    freqDict keys = none := by
  unfold freqDict
  split
  · rename_i a b c hs
    refine absurd ?_ h
    rw [← List.length_insertionSort (· ≤ ·) keys, hs]
    rfl
  · rfl

/-- C10: both algorithms funnel the configured label through `_freq_dict`,
which unpacks `sorted(keys)` into exactly three names: with any number of
frequency rasters other than three, `process_line` of either algorithm
raises the unpacking `ValueError` regardless of the configured label; and
with three, the labels are bound purely by sort order — the smallest key
becomes label 24, the middle 50 and the largest 200. -/
theorem c10_freq_label_selection :
    (∀ (cfg : CurrentCfg) (ext : ExtOps) (sl : SurveyLineM), sl.frequencies.length ≠ 3 →
        (processLineCurrent cfg ext sl).1 =
          .error "ValueError: too many values to unpack in freq dict") ∧
      (∀ (cfg : PreCfg) (ext : ExtOps) (sl : SurveyLineM), sl.frequencies.length ≠ 3 →
        (processLinePre cfg ext sl).1 =
          .error "ValueError: too many values to unpack in freq dict") ∧
      (∀ (keys : List ℚ) (a b c : ℚ), List.insertionSort (· ≤ ·) keys = [a, b, c] →
        freqDict keys = some (a, b, c) ∧ a ≤ b ∧ b ≤ c ∧
          freqLabelKey (a, b, c) .f200 = c ∧ freqLabelKey (a, b, c) .f50 = b ∧
          freqLabelKey (a, b, c) .f24 = a) := by
  refine ⟨?_, ?_, ?_⟩
  · intro cfg ext sl h
    have hk : (sl.frequencies.map (fun kv => kv.1)).length ≠ 3 := by
      simpa using h
    simp [processLineCurrent, processLineCurrentCore, getIntensity,
      freqDict_eq_none_of_len _ hk, Bind.bind, Except.bind]
  · intro cfg ext sl h
    have hk : (sl.frequencies.map (fun kv => kv.1)).length ≠ 3 := by
      simpa using h
    simp [processLinePre, processLinePreCore, getIntensity,
      freqDict_eq_none_of_len _ hk, Bind.bind, Except.bind]
  · intro keys a b c hs
    have hsorted := List.sorted_insertionSort (· ≤ ·) keys
    rw [hs] at hsorted
    rw [List.sorted_cons] at hsorted
    obtain ⟨ha, hsorted⟩ := hsorted
    rw [List.sorted_cons] at hsorted
    obtain ⟨hb, -⟩ := hsorted
    refine ⟨?_, ha b (by simp), hb c (by simp), rfl, rfl, rfl⟩
    unfold freqDict
    rw [hs]

/-- C10 witness: a two-raster line makes both algorithms fail with the
unpacking error, and for the concrete keys `[14, 208, 51]` the label map is
`{200: 208, 50: 51, 24: 14}` — by sort order, not by matching the label
value. -/
theorem c10_witness :
    (processLineCurrent
        { frequency := .f200, threshold := -1/10, threshold_offset := 0,
          blank_above_distance := -1, blank_below_distance := -1 }
        { findTopBottom := fun _ => (0, 0), otsu := fun _ => 0, binaryOpening := fun m => m }
        { trace_num := [1], frequencies := [(200, [[1]]), (50, [[1]])],
          freq_trace_num := [(200, [1]), (50, [1])], draft := 0, heave := [0],
          pixel_resolution := 1, lake_depths := [], preimpoundment_depths := [] }).1 =
      .error "ValueError: too many values to unpack in freq dict" ∧
    (processLinePre
        { frequency := .f50, threshold := -1/10, threshold_offset := 0,
          current_surface_line := "cur" }
        { findTopBottom := fun _ => (0, 0), otsu := fun _ => 0, binaryOpening := fun m => m }
        { trace_num := [1], frequencies := [(200, [[1]]), (50, [[1]])],
          freq_trace_num := [(200, [1]), (50, [1])], draft := 0, heave := [0],
          pixel_resolution := 1, lake_depths := [], preimpoundment_depths := [] }).1 =
      .error "ValueError: too many values to unpack in freq dict" ∧
    (freqDict [14, 208, 51] = some (14, 51, 208) ∧ (14 : ℚ) ≤ 51 ∧ (51 : ℚ) ≤ 208 ∧
      freqLabelKey (14, 51, 208) .f200 = 208 ∧ freqLabelKey (14, 51, 208) .f50 = 51 ∧
      freqLabelKey (14, 51, 208) .f24 = 14) :=
  ⟨c10_freq_label_selection.1 _ _ _ (by decide),
    c10_freq_label_selection.2.1 _ _ _ (by decide),
    c10_freq_label_selection.2.2 [14, 208, 51] 14 51 208 (by decide)⟩

/-!
## Claim C8: missing current-surface reference line
-/

/-- C8: with a well-formed line (three frequency rasters, the selected
frequency present), a `PreImpoundmentThreshold` configuration whose
`current_surface_line` is absent from `lake_depths` makes `process_line`
fail with the lookup error, producing no depth line and leaving the survey
line record unchanged (the error is raised before anything is written; the
second component of `processLinePre` is the final record state). -/
theorem c8_missing_surface_line (cfg : PreCfg) (ext : ExtOps) (sl : SurveyLineM)
    (fd : ℚ × ℚ × ℚ) (hfd : freqDict (sl.frequencies.map (fun kv => kv.1)) = some fd)
    (fta : List ℤ) (hfta : lookupA sl.freq_trace_num (freqLabelKey fd cfg.frequency) = some fta)
    (img : ImageQ) (himg : lookupA sl.frequencies (freqLabelKey fd cfg.frequency) = some img)
    (habs : sl.lake_depths.find? (fun kv => decide (kv.1 = cfg.current_surface_line)) = none) :
    processLinePre cfg ext sl =
      (.error "KeyError: current surface line not in lake_depths", sl) := by
  simp [processLinePre, processLinePreCore, getIntensity, getCurrentSurface,
    hfd, hfta, himg, habs, Bind.bind, Except.bind]

/-- C8 witness: a concrete three-raster line with empty `lake_depths` and a
configuration naming the absent line "cur". -/
theorem c8_witness :
    processLinePre
        { frequency := .f200, threshold := -1/10, threshold_offset := 0,
          current_surface_line := "cur" }
        { findTopBottom := fun _ => (0, 0), otsu := fun _ => 0, binaryOpening := fun m => m }
        { trace_num := [1], frequencies := [(200, [[1]]), (50, [[1]]), (24, [[1]])],
          freq_trace_num := [(200, [1]), (50, [1]), (24, [1])], draft := 0, heave := [0],
          pixel_resolution := 1, lake_depths := [], preimpoundment_depths := [] } =
      (.error "KeyError: current surface line not in lake_depths",
        { trace_num := [1], frequencies := [(200, [[1]]), (50, [[1]]), (24, [[1]])],
          freq_trace_num := [(200, [1]), (50, [1]), (24, [1])], draft := 0, heave := [0],
          pixel_resolution := 1, lake_depths := [], preimpoundment_depths := [] }) :=
  c8_missing_surface_line _ _ _ (24, 50, 200) (by decide) [1] (by decide) [[1]] (by decide)
    (by decide)

/-!
## Claim C6: purity of the primitives and frame effect of process_line
-/

/-- C6: as stated the claim is FALSE: `_clear_image_above_line` writes into
its array argument in place (`intensity[:p, i] = median`), so the argument
buffer does not keep its contents — here the column `[0, 5, 9, 1]` with
surface row 3 ends as `[5, 5, 5, 1]`.  (`clearImageAboveLine` gives the
final contents of the argument buffer, which the Python function also
returns.) -/
theorem c6_counterexample :
    clearImageAboveLine [[0, 5, 9, 1]] [3] ≠ [[0, 5, 9, 1]] := by decide

/-- C6 (amended): `_clear_image_above_line` and `_interpolate_nans` write
into their array arguments in place, so not every ImageOps primitive leaves
its array arguments unchanged; nevertheless `process_line` of either
algorithm leaves every field of the survey line record unchanged on every
path, because the in-place writes only ever land on local copies
(`frequencies[freq].copy()` in `_get_intensity`, `depth_array.copy()` in
`_get_current_surface`, and the locally allocated depth array). -/
theorem c6_process_line_preserves_record :
    (∀ (cfg : CurrentCfg) (ext : ExtOps) (sl : SurveyLineM),
        (processLineCurrent cfg ext sl).2 = sl) ∧
      (∀ (cfg : PreCfg) (ext : ExtOps) (sl : SurveyLineM),
        (processLinePre cfg ext sl).2 = sl) :=
  ⟨fun _ _ _ => rfl, fun _ _ _ => rfl⟩

end Hydropick

namespace Hydropick

/-!
## Claim C4: edge search directionality
-/

theorem getD_map_range {α : Type} (n : ℕ) (f : ℕ → α) (i : ℕ) (d : α) (hi : i < n) :
    ((List.range n).map f).getD i d = f i := by
  rw [List.getD_eq_getD_get?, List.get?_eq_getElem?, List.getElem?_map,
    List.getElem?_range hi]
  rfl

theorem lastTrueBelow_some (x : List Bool) (q k : ℕ) (h : lastTrueBelow x q = some k) :
    k < q ∧ x.getD k false = true ∧ ∀ m, k < m → m < q → x.getD m false = false := by
  induction q with
  | zero => simp [lastTrueBelow] at h
  | succ n ih =>
    rw [lastTrueBelow] at h
    by_cases hx : x.getD n false = true
    · rw [if_pos hx] at h
      obtain rfl : n = k := by injection h
      exact ⟨Nat.lt_succ_self n, hx, fun m h1 h2 => absurd h1 (by omega)⟩
    · rw [if_neg hx] at h
      obtain ⟨h1, h2, h3⟩ := ih h
      refine ⟨by omega, h2, fun m hm1 hm2 => ?_⟩
      rcases Nat.lt_or_ge m n with hmn | hmn
      · exact h3 m hm1 hmn
      · have : m = n := by omega
        subst this
        exact Bool.not_eq_true _ ▸ (by simpa using hx)

theorem lastTrueBelow_none (x : List Bool) (q : ℕ) (h : lastTrueBelow x q = none) :
    ∀ m, m < q → x.getD m false = false := by
  induction q with
  | zero => exact fun m hm => absurd hm (by omega)
  | succ n ih =>
    rw [lastTrueBelow] at h
    by_cases hx : x.getD n false = true
    · rw [if_pos hx] at h; exact absurd h (by simp)
    · rw [if_neg hx] at h
      intro m hm
      rcases Nat.lt_or_ge m n with hmn | hmn
      · exact ih h m hmn
      · have : m = n := by omega
        subst this
        simpa using hx

theorem firstTrueAux_some (l : List Bool) (s k : ℕ) (h : firstTrueAux l s = some k) :
    s ≤ k ∧ k - s < l.length ∧ l.getD (k - s) false = true ∧
      ∀ j, j < k - s → l.getD j false = false := by
  induction l generalizing s with
  | nil => simp [firstTrueAux] at h
  | cons b t ih =>
    rw [firstTrueAux] at h
    by_cases hb : b = true
    · rw [if_pos hb] at h
      obtain rfl : s = k := by injection h
      simp [hb]
    · rw [if_neg hb] at h
      obtain ⟨h1, h2, h3, h4⟩ := ih (s + 1) h
      have hks : k - s = (k - (s + 1)) + 1 := by omega
      refine ⟨by omega, by simp; omega, by simpa [hks] using h3, fun j hj => ?_⟩
      rcases Nat.eq_zero_or_pos j with rfl | hj0
      · simpa using hb
      · have : j - 1 < k - (s + 1) := by omega
        have := h4 (j - 1) this
        have hj1 : j = (j - 1) + 1 := by omega
        rw [hj1]
        simpa using this

theorem firstTrueAux_none (l : List Bool) (s : ℕ) (h : firstTrueAux l s = none) :
    ∀ j, l.getD j false = false := by
  induction l generalizing s with
  | nil => intro j; simp
  | cons b t ih =>
    rw [firstTrueAux] at h
    by_cases hb : b = true
    · rw [if_pos hb] at h; exact absurd h (by simp)
    · rw [if_neg hb] at h
      intro j
      rcases Nat.eq_zero_or_pos j with rfl | hj0
      · simpa using hb
      · have := ih (s + 1) h (j - 1)
        have hj1 : j = (j - 1) + 1 := by omega
        rw [hj1]
        simpa using this

theorem first_point_above_spec (x : List Bool) (p : ℤ) (hp : 0 ≤ p) :
    (∀ k, first_point_above x p = some k →
        ((k : ℤ) < p ∧ x.getD k false = true ∧
          ∀ m : ℕ, k < m → (m : ℤ) < p → x.getD m false = false)) ∧
      (first_point_above x p = none → ∀ m : ℕ, (m : ℤ) < p → x.getD m false = false) := by
  have hq : pyClamp x.length p = min p.toNat x.length := by
    rw [pyClamp, if_pos hp]
  have hcast : ∀ m : ℕ, (m : ℤ) < p ↔ m < p.toNat := by
    intro m; omega
  constructor
  · intro k hk
    rw [first_point_above, hq] at hk
    obtain ⟨h1, h2, h3⟩ := lastTrueBelow_some x _ k hk
    refine ⟨(hcast k).mpr (by omega), h2, fun m hm1 hm2 => ?_⟩
    rcases Nat.lt_or_ge m (min p.toNat x.length) with hmq | hmq
    · exact h3 m hm1 hmq
    · refine List.getD_eq_default x false ?_
      have := (hcast m).mp hm2
      omega
  · intro hn m hm
    rw [first_point_above, hq] at hn
    rcases Nat.lt_or_ge m (min p.toNat x.length) with hmq | hmq
    · exact lastTrueBelow_none x _ hn m hmq
    · refine List.getD_eq_default x false ?_
      have := (hcast m).mp hm
      omega

theorem drop_getD (x : List Bool) (s j : ℕ) :
    (x.drop s).getD j false = x.getD (s + j) false := by
  rw [List.getD_eq_getD_get?, List.getD_eq_getD_get?, List.get?_eq_getElem?,
    List.get?_eq_getElem?, List.getElem?_drop]

theorem first_point_below_spec (x : List Bool) (p : ℤ) (hp : 0 ≤ p) :
    (∀ k, first_point_below x p = some k →
        (p ≤ (k : ℤ) ∧ x.getD k false = true ∧
          ∀ m : ℕ, p ≤ (m : ℤ) → m < k → x.getD m false = false)) ∧
      (first_point_below x p = none → ∀ m : ℕ, p ≤ (m : ℤ) → x.getD m false = false) := by
  have hq : pyClamp x.length p = min p.toNat x.length := by
    rw [pyClamp, if_pos hp]
  constructor
  · intro k hk
    rw [first_point_below, hq] at hk
    obtain ⟨h1, h2, h3, h4⟩ := firstTrueAux_some _ _ k hk
    rw [List.length_drop] at h2
    have hs : min p.toNat x.length = p.toNat := by omega
    rw [hs] at h1 h2 h3 h4
    have hk2 : x.getD k false = true := by
      have := drop_getD x p.toNat (k - p.toNat)
      rw [Nat.add_sub_cancel' h1] at this
      rw [← this]
      exact h3
    refine ⟨by omega, hk2, fun m hm1 hm2 => ?_⟩
    have hms : p.toNat ≤ m := by omega
    have := h4 (m - p.toNat) (by omega)
    rw [drop_getD, Nat.add_sub_cancel' hms] at this
    exact this
  · intro hn m hm
    rw [first_point_below, hq] at hn
    rcases Nat.lt_or_ge m x.length with hml | hml
    · have hs : min p.toNat x.length = p.toNat := by omega
      rw [hs] at hn
      have hms : p.toNat ≤ m := by omega
      have := firstTrueAux_none _ _ hn (m - p.toNat)
      rw [drop_getD, Nat.add_sub_cancel' hms] at this
      exact this
    · exact List.getD_eq_default x false hml

/-- Modelled from the spec: the claim's own description of the upper search,
"the first True pixel index found scanning upward from centers[i], at or
before the center" — i.e. the greatest true index `k ≤ p`. -/
def specFirstAtOrBefore (x : List Bool) (p : ℕ) : Option ℕ :=
  lastTrueBelow x (min (p + 1) x.length)

/-- C4: as stated the claim is FALSE for the upper search: `_first_point_above`
scans `x[:p]`, which EXCLUDES the center pixel itself, while the claim says
"at or before the center".  On the one-pixel mask whose only true pixel sits
exactly at the center row 0, the code returns NaN but the claim's reading
returns the center. -/
theorem c4_counterexample :
    find_edge [[true]] [0] "upper" ≠ [specFirstAtOrBefore [true] 0] := by decide

/-- C4 (amended): for each column, the upper search returns the first true
pixel found scanning upward from `centers[i] - 1` — STRICTLY before the
center, never a row at or beyond it — and NaN when no pixel strictly above
the center is true; the lower search returns the first true pixel at or
after `centers[i]`, never a row before it, and NaN when none is true. -/
theorem c4_edge_directionality (mask : MaskB) (centers : List ℤ) (i : ℕ)
    (hi : i < centers.length) (hp : 0 ≤ centers.getD i 0) :
    (∀ k, (find_edge mask centers "upper").getD i none = some k →
        ((k : ℤ) < centers.getD i 0 ∧ (mask.getD i []).getD k false = true ∧
          ∀ m : ℕ, k < m → (m : ℤ) < centers.getD i 0 →
            (mask.getD i []).getD m false = false)) ∧
      ((find_edge mask centers "upper").getD i none = none →
        ∀ m : ℕ, (m : ℤ) < centers.getD i 0 → (mask.getD i []).getD m false = false) ∧
      (∀ k, (find_edge mask centers "lower").getD i none = some k →
        (centers.getD i 0 ≤ (k : ℤ) ∧ (mask.getD i []).getD k false = true ∧
          ∀ m : ℕ, centers.getD i 0 ≤ (m : ℤ) → m < k →
            (mask.getD i []).getD m false = false)) ∧
      ((find_edge mask centers "lower").getD i none = none →
        ∀ m : ℕ, centers.getD i 0 ≤ (m : ℤ) → (mask.getD i []).getD m false = false) := by
  have hu : (find_edge mask centers "upper").getD i none =
      first_point_above (mask.getD i []) (centers.getD i 0) := by
    rw [find_edge, getD_map_range _ _ i none hi]
    simp
  have hl : (find_edge mask centers "lower").getD i none =
      first_point_below (mask.getD i []) (centers.getD i 0) := by
    rw [find_edge, getD_map_range _ _ i none hi]
    simp
  rw [hu, hl]
  obtain ⟨ha1, ha2⟩ := first_point_above_spec (mask.getD i []) (centers.getD i 0) hp
  obtain ⟨hb1, hb2⟩ := first_point_below_spec (mask.getD i []) (centers.getD i 0) hp
  exact ⟨ha1, ha2, hb1, hb2⟩

/-- C4 witness: on the column `[false, true, false, true, false]` with
center row 2 the upper search finds row 1 and the lower search row 3; the
theorem instance confirms both bounds and the located pixels. -/
theorem c4_witness :
    (0 < 1 ∧ (0 : ℤ) ≤ [(2 : ℤ)].getD 0 0) ∧
      (∀ k, (find_edge [[false, true, false, true, false]] [2] "upper").getD 0 none = some k →
        ((k : ℤ) < [(2 : ℤ)].getD 0 0 ∧
          ([[false, true, false, true, false]].getD 0 []).getD k false = true ∧
          ∀ m : ℕ, k < m → (m : ℤ) < [(2 : ℤ)].getD 0 0 →
            ([[false, true, false, true, false]].getD 0 []).getD m false = false)) := by
  refine ⟨⟨by decide, by decide⟩, ?_⟩
  exact (c4_edge_directionality [[false, true, false, true, false]] [2] 0 (by decide)
    (by decide)).1

end Hydropick

namespace Hydropick

/-!
## Claim C9: locked depth lines refuse mutation
-/

theorem logProblem_spec (st : DLViewState) (msg : String) :
    (logProblem st msg).model = st.model ∧ (logProblem st msg).no_problem = false ∧
      (logProblem st msg).problems = st.problems ++ [msg] :=
  ⟨rfl, rfl, rfl⟩

theorem checkIfName_spec (st : DLViewState) :
    (checkIfNameAlreadyExists st).model.index_array = st.model.index_array ∧
      (checkIfNameAlreadyExists st).model.depth_array = st.model.depth_array ∧
      ((checkIfNameAlreadyExists st).no_problem = true → st.no_problem = true) ∧
      (∀ msg, msg ∈ st.problems → msg ∈ (checkIfNameAlreadyExists st).problems) ∧
      (st.model.lock = true → (checkIfNameAlreadyExists st).model.lock = true) := by
  unfold checkIfNameAlreadyExists logProblem
  dsimp only
  split_ifs <;> simp_all

theorem checkArrays_spec (st : DLViewState) :
    (checkArrays st).model = st.model ∧
      ((checkArrays st).no_problem = true → st.no_problem = true) ∧
      (∀ msg, msg ∈ st.problems → msg ∈ (checkArrays st).problems) := by
  unfold checkArrays logProblem
  dsimp only
  split_ifs <;> simp_all

theorem checkPrintableName_spec (st : DLViewState) :
    (checkPrintableName st).model = st.model ∧
      ((checkPrintableName st).no_problem = true → st.no_problem = true) ∧
      (∀ msg, msg ∈ st.problems → msg ∈ (checkPrintableName st).problems) := by
  unfold checkPrintableName logProblem
  split_ifs <;> simp_all

/-- C9: on a locked depth line, both `update_arrays` and `apply_to_current`
leave `index_array` and `depth_array` untouched and report the immutability
error (the handlers pass "locked so cannot change/create anything" to
`log_problem`, which logs it and opens an error dialog — the attempt is
never silently ignored). -/
theorem c9_locked_line_refuses_mutation (st : DLViewState) (hlock : st.model.lock = true) :
    (∃ st2, updateArrays st = some st2 ∧
        st2.model.index_array = st.model.index_array ∧
        st2.model.depth_array = st.model.depth_array ∧
        lockedMsg ∈ st2.problems) ∧
      ((applyToCurrent st).model.index_array = st.model.index_array ∧
        (applyToCurrent st).model.depth_array = st.model.depth_array ∧
        lockedMsg ∈ (applyToCurrent st).problems) := by
  constructor
  · -- update_arrays
    rw [updateArrays]
    simp only [hlock, if_true]
    set st1 := logProblem st lockedMsg with hst1
    have h1np : st1.no_problem = false := rfl
    have h1mem : lockedMsg ∈ st1.problems := by simp [hst1, logProblem]
    by_cases hsel : st1.selected_depth_line_name = "none"
    · rw [if_pos hsel]
      obtain ⟨hia, hda, hnp, hmem, -⟩ := checkIfName_spec st1
      have h2np : (checkIfNameAlreadyExists st1).no_problem = false := by
        cases h : (checkIfNameAlreadyExists st1).no_problem
        · rfl
        · exact absurd (hnp h) (by simp [h1np])
      rw [if_neg (by simp [h2np])]
      exact ⟨_, rfl, hia, hda, hmem _ h1mem⟩
    · rw [if_neg hsel]
      rw [if_neg (by simp [h1np])]
      exact ⟨_, rfl, rfl, rfl, h1mem⟩
  · -- apply_to_current
    rw [applyToCurrent]
    obtain ⟨hm1, hnp1, hmem1⟩ := checkPrintableName_spec st
    set s1 := checkPrintableName st with hs1
    obtain ⟨hm2, hnp2, hmem2⟩ := checkArrays_spec s1
    set s2 := checkArrays s1 with hs2
    have harr2 : s2.model = st.model := by rw [hm2, hm1]
    by_cases hname : s2.model.name ≠ pySplitTailJoin s2.selected_depth_line_name
    · rw [if_pos hname]
      obtain ⟨hia3, hda3, hnp3, hmem3, hlk3⟩ := checkIfName_spec s2
      set s3 := checkIfNameAlreadyExists s2 with hs3
      have hlk : s3.model.lock = true := hlk3 (by rw [harr2]; exact hlock)
      rw [if_pos hlk]
      set s4 := logProblem s3 lockedMsg with hs4
      have h4np : s4.no_problem = false := rfl
      have h4mem : lockedMsg ∈ s4.problems := by simp [hs4, logProblem]
      have h4ia : s4.model.index_array = st.model.index_array := by
        show s3.model.index_array = st.model.index_array
        rw [hia3, harr2]
      have h4da : s4.model.depth_array = st.model.depth_array := by
        show s3.model.depth_array = st.model.depth_array
        rw [hda3, harr2]
      rw [if_neg (by simp [h4np])]
      exact ⟨h4ia, h4da, by simp [logProblem, h4mem]⟩
    · rw [if_neg hname]
      have hlk : s2.model.lock = true := by rw [harr2]; exact hlock
      rw [if_pos hlk]
      set s4 := logProblem s2 lockedMsg with hs4
      have h4np : s4.no_problem = false := rfl
      have h4mem : lockedMsg ∈ s4.problems := by simp [hs4, logProblem]
      rw [if_neg (by simp [h4np])]
      refine ⟨?_, ?_, by simp [logProblem, h4mem]⟩
      · show s2.model.index_array = st.model.index_array
        rw [harr2]
      · show s2.model.depth_array = st.model.depth_array
        rw [harr2]

/-- C9 witness: a concrete locked line (source sdi, arrays `[0]`/`[3]`)
run through both handlers: the arrays survive unchanged and the locked
message is reported. -/
def lockedStateW : DLViewState :=
  { model :=
      { name := "current_surface_from_bin", survey_line_name := "12041701",
        line_type := "current surface", source := "sdi_file",
        source_name := "12041701.bin", args := [], index_array := [0],
        depth_array := [3], edited := false, lock := true },
    selected_depth_line_name := "POST_current_surface_from_bin",
    no_problem := true, problems := [],
    lake_depths := [], preimpoundment_depths := [], depth_dict := [],
    final_lake_depth := "", final_preimpoundment_depth := "",
    current_algorithm := none, alg_result := .ok ([], []) }

theorem c9_witness :
    lockedStateW.model.lock = true ∧
      ((∃ st2, updateArrays lockedStateW = some st2 ∧
          st2.model.index_array = lockedStateW.model.index_array ∧
          st2.model.depth_array = lockedStateW.model.depth_array ∧
          lockedMsg ∈ st2.problems) ∧
        ((applyToCurrent lockedStateW).model.index_array = lockedStateW.model.index_array ∧
          (applyToCurrent lockedStateW).model.depth_array = lockedStateW.model.depth_array ∧
          lockedMsg ∈ (applyToCurrent lockedStateW).problems)) :=
  ⟨rfl, c9_locked_line_refuses_mutation lockedStateW rfl⟩

end Hydropick

namespace Hydropick

/-!
## Claim C5: occlusion and center finding
-/

theorem le_findIdx_of_prefix_false {α : Type} (p : α → Bool) (l : List α) (q : ℕ)
    (hq : q ≤ l.length) (h : ∀ k, (hk : k < l.length) → k < q → p l[k] = false) :
    q ≤ l.findIdx p := by
  induction l generalizing q with
  | nil => simp at hq; omega
  | cons a t ih =>
    cases q with
    | zero => omega
    | succ n =>
      have hpa : p a = false := h 0 (by simp) (by omega)
      rw [List.findIdx_cons, hpa]
      simp only [cond_false]
      have hrec := ih n (by simpa using hq) (fun k hk hkq => by
        have := h (k + 1) (by simpa using Nat.succ_lt_succ hk) (by omega)
        simpa using this)
      omega

theorem argmaxIdx_ge (col : List ℚ) (q : ℕ) (hq : q ≤ col.length)
    (h : ∀ k, k < q → ∃ y ∈ col.drop q, col.getD k 0 < y) :
    q ≤ argmaxIdx col := by
  rw [argmaxIdx]
  refine le_findIdx_of_prefix_false _ col q hq (fun k hk hkq => ?_)
  obtain ⟨y, hy, hlt⟩ := h k hkq
  rw [List.getD_eq_getElem _ _ hk] at hlt
  refine decide_eq_false ?_
  intro hmax
  have h1 : (y : WithBot ℚ) ≤ col.maximum := List.le_maximum_of_mem' (List.mem_of_mem_drop hy)
  have h2 : (y : WithBot ℚ) ≤ (col[k] : WithBot ℚ) := le_trans h1 hmax
  rw [WithBot.coe_le_coe] at h2
  exact absurd hlt (not_lt_of_le h2)

theorem clearCol_ofNat (col : List ℚ) (pn : ℕ) (hp : pn ≤ col.length) :
    clearCol col (pn : ℤ) =
      ((col.take pn).map (fun _ => medianQ (col.take pn))) ++ col.drop pn := by
  rw [clearCol]
  have : pyClamp col.length (pn : ℤ) = pn := by
    simp [pyClamp, min_eq_left hp]
  rw [this]

theorem argmax_clearCol_ge (col : List ℚ) (pn : ℕ) (hp : pn ≤ col.length)
    (hy : ∃ y ∈ col.drop pn, medianQ (col.take pn) < y) :
    pn ≤ argmaxIdx (clearCol col (pn : ℤ)) := by
  rw [clearCol_ofNat col pn hp]
  set bl := (col.take pn).map (fun _ => medianQ (col.take pn)) with hbl
  have hbllen : bl.length = pn := by
    simp [hbl, min_eq_left hp]
  have htot : pn ≤ (bl ++ col.drop pn).length := by
    rw [List.length_append, hbllen]
    omega
  refine argmaxIdx_ge _ pn htot (fun k hk => ?_)
  obtain ⟨y, hym, hylt⟩ := hy
  have hkb : k < bl.length := by omega
  have hgk : (bl ++ col.drop pn).getD k 0 = medianQ (col.take pn) := by
    rw [List.getD_eq_getElem _ _ (by omega), List.getElem_append_left hkb]
    simp [hbl]
  refine ⟨y, ?_, ?_⟩
  · have hdrop : (bl ++ col.drop pn).drop pn = col.drop pn := by
      nth_rewrite 1 [← hbllen]
      exact List.drop_left _ _
    rw [hdrop]
    exact hym
  · rw [hgk]
    exact hylt

theorem getD_map_lt {α β : Type} (f : α → β) (l : List α) (j : ℕ) (d : β) (d2 : α)
    (h : j < l.length) : (l.map f).getD j d = f (l.getD j d2) := by
  rw [List.getD_eq_getElem _ _ (by simpa using h), List.getElem_map, List.getD_eq_getElem _ _ h]

theorem med9_ge_of_all (w : List ℕ) (c : ℕ) (h9 : w.length = 9) (hall : ∀ x ∈ w, c ≤ x) :
    c ≤ med9 w := by
  have hlen : (List.insertionSort (· ≤ ·) w).length = 9 := by
    rw [List.length_insertionSort]
    exact h9
  have h4 : 4 < (List.insertionSort (· ≤ ·) w).length := by omega
  rw [med9, List.getD_eq_getElem _ _ h4]
  refine hall _ ?_
  exact (List.perm_insertionSort (· ≤ ·) w).mem_iff.mp (List.getElem_mem h4)

theorem window9_length (y : List ℕ) (i : ℕ) : (window9 y i).length = 9 := by
  simp [window9]

theorem medfilt9_interior_ge (y : List ℕ) (c i : ℕ) (hi : 4 ≤ i) (hin : i + 4 < y.length)
    (hall : ∀ j, i - 4 ≤ j → j ≤ i + 4 → c ≤ y.getD j 0) :
    c ≤ (medfilt9 y).getD i 0 := by
  rw [medfilt9, getD_map_range _ _ i 0 (by omega)]
  refine med9_ge_of_all _ c (window9_length y i) (fun x hx => ?_)
  rw [window9] at hx
  obtain ⟨k, hk, hfk⟩ := List.mem_map.mp hx
  rw [List.mem_range] at hk
  rw [if_pos (by omega)] at hfk
  rw [← hfk]
  exact hall (i + k - 4) (by omega) (by omega)

theorem clearImage_getD (img : ImageQ) (locs : List ℤ) (j : ℕ)
    (hlen : locs.length = img.length) (hj : j < img.length) :
    (clearImageAboveLine img locs).getD j [] =
      clearCol (img.getD j []) (locs.getD j 0) := by
  rw [clearImageAboveLine, hlen, List.drop_length, List.append_nil]
  have hzlen : (List.zipWith clearCol img locs).length = img.length := by
    rw [List.length_zipWith, hlen, min_self]
  rw [List.getD_eq_getElem _ _ (by omega : j < (List.zipWith clearCol img locs).length),
    List.getElem_zipWith, List.getD_eq_getElem _ _ hj,
    List.getD_eq_getElem _ _ (by omega : j < locs.length)]

theorem clearImage_length (img : ImageQ) (locs : List ℤ) (hlen : locs.length = img.length) :
    (clearImageAboveLine img locs).length = img.length := by
  rw [clearImageAboveLine, hlen, List.drop_length, List.append_nil,
    List.length_zipWith, hlen, min_self]

/-- C5: as stated the claim is FALSE: on an image whose strongest reflector
sits ABOVE the blanked band (nine columns `[5, 1]`, every surface row 1),
`clear_image_above_line` rewrites each one-pixel blanked prefix with its own
median — leaving the column unchanged — and `find_centers` then places every
center at row 0, strictly above the surface row.  The blanking does not
prevent the argmax from landing in the blanked region, because the constant
median can still be the column's maximum. -/
theorem c5_counterexample :
    ((findCenters (clearImageAboveLine (List.replicate 9 [5, 1])
        (List.replicate 9 1))).getD 0 0 : ℤ) < (List.replicate 9 (1 : ℤ)).getD 0 0 := by
  decide

/-- C5 (amended): the center of an interior column `i` (a full median-filter
window, `4 ≤ i` and `i + 4 <` the column count) is at or below every common
lower bound `c` of the surface rows of the window columns `i - 4 .. i + 4`,
PROVIDED each of those columns is genuinely occluded: its surface row fits
in the column and the median written into the blanked prefix is strictly
smaller than some pixel at or below the surface row.  (Without the proviso
the blanked prefix can hold the column maximum, and at edge columns the
median filter's zero padding can pull the center above the surface; the
counterexample shows the unconditional claim fails.) -/
theorem c5_cleared_centers_lower_bound (img : ImageQ) (locs : List ℤ) (c i : ℕ)
    (hlen : locs.length = img.length) (hi4 : 4 ≤ i) (hin : i + 4 < img.length)
    (hcols : ∀ j, i - 4 ≤ j → j ≤ i + 4 → ∃ pj : ℕ,
      locs.getD j 0 = (pj : ℤ) ∧ pj ≤ (img.getD j []).length ∧ c ≤ pj ∧
      ∃ y ∈ (img.getD j []).drop pj, medianQ ((img.getD j []).take pj) < y) :
    c ≤ (findCenters (clearImageAboveLine img locs)).getD i 0 := by
  set img2 := clearImageAboveLine img locs with himg2
  have hlen2 : img2.length = img.length := clearImage_length img locs hlen
  rw [findCenters]
  refine medfilt9_interior_ge _ c i hi4 (by rw [List.length_map, hlen2]; exact hin) ?_
  intro j hj1 hj2
  have hjlt : j < img.length := by omega
  rw [getD_map_lt argmaxIdx img2 j 0 [] (by rw [hlen2]; exact hjlt)]
  rw [himg2, clearImage_getD img locs j hlen hjlt]
  obtain ⟨pj, hpj, hple, hcpj, hy⟩ := hcols j hj1 hj2
  rw [hpj]
  exact le_trans hcpj (argmax_clearCol_ge (img.getD j []) pj hple hy)

/-- C5 witness: nine columns `[0, 5]`, surface row 1 everywhere; every
window column is genuinely occluded (blanked median 0, pixel 5 below the
surface), and the center of the interior column 4 indeed lands at row 1,
not above the surface. -/
theorem c5_witness :
    1 ≤ (findCenters (clearImageAboveLine (List.replicate 9 [0, 5])
        (List.replicate 9 1))).getD 4 0 :=
  c5_cleared_centers_lower_bound (List.replicate 9 [0, 5]) (List.replicate 9 1) 1 4
    (by decide) (by decide) (by decide)
    (by
      intro j h1 h2
      interval_cases j <;>
        exact ⟨1, by decide, by decide, by decide, 5, by decide, by decide⟩)

end Hydropick
